import Mathlib

set_option maxRecDepth 8000

/-!
Shallow embedding of src/realtime-server.js (the Socket.io + PostgreSQL
version, the last of the three program versions in the file): the task
store with its PostgreSQL backend and local file backend, the HTTP
POST /api/tasks handler, the status aggregation, the Socket.io mutation
handlers, and the broadcast functions.

Conventions: JSON task objects are modelled with one optional field per
attribute, an absent JSON field being none. The wall clock (Date.now) is
passed as an explicit integer parameter. I/O failures are injected through
explicit boolean flags; a flag set to true means the corresponding
fs/query call fails on that request.
-/

/-- A JSON task object as it travels through the program: every field may
be absent (undefined in JS). -/
structure JTask where
  id : Option Int
  title : Option String
  description : Option String
  column : Option String
  tag : Option String
  assignee : Option String
  priority : Option String
  emoji : Option String
  dueDate : Option String
  createdAt : Option Int
  updatedAt : Option Int
deriving DecidableEq

/-- The empty JSON object, viewed as a task. -/
def emptyTask : JTask := ⟨none, none, none, none, none, none, none, none, none, none, none⟩

instance : Inhabited JTask := ⟨emptyTask⟩

/-- Field override used by the JS object spread: the second operand wins
exactly when its field is present. -/
def pick (old new : Option α) : Option α :=
  match new with
  | some v => some v
  | none => old

/-- JS object spread of two task objects, second operand last. -/
def jmerge (a b : JTask) : JTask :=
  ⟨pick a.id b.id, pick a.title b.title, pick a.description b.description,
   pick a.column b.column, pick a.tag b.tag, pick a.assignee b.assignee,
   pick a.priority b.priority, pick a.emoji b.emoji, pick a.dueDate b.dueDate,
   pick a.createdAt b.createdAt, pick a.updatedAt b.updatedAt⟩

/-- JS (x || d) for string-valued fields: an absent field and the empty
string are both falsy, so both fall back to the default. -/
def jsOrStr (x : Option String) (d : String) : String :=
  match x with
  | some s => if s = "" then d else s
  | none => d

/-- JS template rendering of a possibly absent string field. -/
def jsShow (x : Option String) : String := x.getD "undefined"

/-- JS String.toLowerCase, characterwise. -/
def lowerStr (s : String) : String := String.mk (s.toList.map Char.toLower)

/-- Whether the first list is an initial segment of the second. -/
def prefChars : List Char → List Char → Bool
  | [], _ => true
  | _ :: _, [] => false
  | a :: as, b :: bs => a == b && prefChars as bs

/-- Whether sub occurs contiguously inside the second list. -/
def subChars (sub : List Char) : List Char → Bool
  | [] => prefChars sub []
  | b :: bs => prefChars sub (b :: bs) || subChars sub bs

/-- JS String.includes. -/
def strContains (s sub : String) : Bool := subChars sub.toList s.toList

/-- The recipient-alias test: lowercase the string and look for either
alias as a substring. -/
def clawdMatchStr (a : String) : Bool :=
  strContains (lowerStr a) "clawd" || strContains (lowerStr a) "jarvis"

/-- (task.assignee || empty).toLowerCase() alias containment test. -/
def clawdMatch (assignee : Option String) : Bool :=
  clawdMatchStr (jsOrStr assignee "")

/-- A row of the tasks table. Every column is filled on insert (the INSERT
branch supplies a default for each missing field), so fields are total. -/
structure Row where
  id : Int
  title : String
  description : String
  column_name : String
  tag : String
  assignee : String
  priority : String
  emoji : String
  dueDate : String
  createdAt : Int
  updatedAt : Int
deriving DecidableEq

/-- The tasks table together with the SERIAL sequence value handed to the
next insert. -/
structure PGDB where
  rows : List Row
  nextId : Int
deriving DecidableEq

/-- The row mapping performed by getTasksPG (column_name back to column,
due_date back to dueDate, and so on). -/
def rowToTask (r : Row) : JTask :=
  ⟨some r.id, some r.title, some r.description, some r.column_name, some r.tag,
   some r.assignee, some r.priority, some r.emoji, some r.dueDate,
   some r.createdAt, some r.updatedAt⟩

/-- Insertion step for sorting rows by id descending. -/
def insertDesc (r : Row) : List Row → List Row
  | [] => [r]
  | x :: xs => if x.id ≤ r.id then r :: x :: xs else x :: insertDesc r xs

/-- ORDER BY id DESC. -/
def sortByIdDesc (rows : List Row) : List Row := rows.foldr insertDesc []

/-- getTasksPG: SELECT * FROM tasks ORDER BY id DESC mapped to task
objects; the catch branch turns any query error into the empty list. -/
def getTasksPG (db : PGDB) (qerr : Bool) : List JTask :=
  if qerr then [] else (sortByIdDesc db.rows).map rowToTask

/-- The truthiness test (task.id && task.id > 0) selecting the update
branch of saveTaskPG. -/
def wantsUpdate (task : JTask) : Bool :=
  match task.id with
  | some i => decide (0 < i)
  | none => false

/-- One SET assignment of the UPDATE statement generated by saveTaskPG. -/
inductive Assign where
  | column_name (v : String)
  | title (v : String)
  | description (v : String)
  | updated_at (v : Int)
deriving DecidableEq

/-- The SET list built by the update branch of saveTaskPG, in push order:
only column, title, description and updatedAt are ever collected from the
payload, and a final updated_at assignment carrying the current time is
always appended afterwards. -/
def updateAssigns (task : JTask) (now : Int) : List Assign :=
  (match task.column with | some v => [Assign.column_name v] | none => [])
  ++ (match task.title with | some v => [Assign.title v] | none => [])
  ++ (match task.description with | some v => [Assign.description v] | none => [])
  ++ (match task.updatedAt with | some v => [Assign.updated_at v] | none => [])
  ++ [Assign.updated_at now]

/-- Effect of one SET assignment on a row. -/
def applyAssign (r : Row) : Assign → Row
  | Assign.column_name v => { r with column_name := v }
  | Assign.title v => { r with title := v }
  | Assign.description v => { r with description := v }
  | Assign.updated_at v => { r with updatedAt := v }

/-- The target column of one SET item. -/
def assignCol : Assign → String
  | Assign.column_name _ => "column_name"
  | Assign.title _ => "title"
  | Assign.description _ => "description"
  | Assign.updated_at _ => "updated_at"

/-- Whether a SET list assigns some column twice. PostgreSQL rejects an
UPDATE whose SET list carries multiple assignments to the same column, so
such a statement errors before touching any row. -/
def dupCols : List Assign → Bool
  | [] => false
  | a :: as => as.any (fun b => assignCol b == assignCol a) || dupCols as

/-- Effect of a valid generated UPDATE on one matched row: every SET item
of the list is applied. The store only executes lists with no duplicate
column (see dupCols), so the single updated_at item then present is the
unconditional current-time push. -/
def applyUpdateRow (task : JTask) (now : Int) (r : Row) : Row :=
  (updateAssigns task now).foldl applyAssign r

/-- UPDATE tasks SET ... WHERE id = tid over the whole table. -/
def applyUpdatePG (db : PGDB) (task : JTask) (now : Int) (tid : Int) : PGDB :=
  { db with rows := db.rows.map (fun r => if r.id = tid then applyUpdateRow task now r else r) }

/-- The row built by the INSERT branch of saveTaskPG: JS || defaults on
every string field, the sequence value as id, and the current time as both
timestamps. -/
def newRowOf (db : PGDB) (task : JTask) (now : Int) : Row :=
  ⟨db.nextId, jsOrStr task.title "", jsOrStr task.description "",
   jsOrStr task.column "backlog", jsOrStr task.tag "", jsOrStr task.assignee "",
   jsOrStr task.priority "medium", jsOrStr task.emoji "", jsOrStr task.dueDate "",
   now, now⟩

/-- INSERT INTO tasks: append the new row and advance the sequence. -/
def insertPG (db : PGDB) (task : JTask) (now : Int) : PGDB :=
  ⟨db.rows ++ [newRowOf db task now], db.nextId + 1⟩

/-- A Socket.io event emitted by the server. -/
inductive Event where
  | tasksUpdate (tasks : List JTask) (timestamp : Int)
  | clawdTask (task : JTask) (message : String) (timestamp : Int)
deriving DecidableEq

/-- Delivery of one event to one connected session. -/
abbrev Delivery := String × Event

/-- io.emit delivers one event to every connected session. -/
def emitAll (sessions : List String) (e : Event) : List Delivery :=
  sessions.map (fun s => (s, e))

/-- Ambient server flags: which backend is active, whether the Socket.io
instance exists, whether the pg client is non-null. -/
structure Env where
  usePostgres : Bool
  hasIo : Bool
  pgClient : Bool
deriving DecidableEq

/-- Recognizer for the full-list broadcast event. -/
def isTasksUpdate : Event → Bool
  | Event.tasksUpdate _ _ => true
  | _ => false

/-- broadcastClawdNotification: guarded on the Socket.io instance and the
relational backend, rechecks the alias containment, then emits a
clawd:task event with the task and a rendered message to all sessions. -/
def broadcastClawdNotification (env : Env) (sessions : List String) (task : JTask) (now : Int) : List Delivery :=
  if env.hasIo && env.usePostgres then
    if clawdMatch task.assignee then
      emitAll sessions (Event.clawdTask task ("📋 Nova task para Clawd: " ++ jsShow task.title) now)
    else []
  else []

/-- broadcastTasks: guarded on the Socket.io instance and the relational
backend, refetches the whole list and emits one tasks:update event to all
sessions (on a refetch error the emitted list is the empty list, since
getTasksPG catches its own errors). -/
def broadcastTasks (env : Env) (sessions : List String) (db : PGDB) (now : Int) (ferr : Bool) : List Delivery :=
  if env.hasIo && env.usePostgres then
    emitAll sessions (Event.tasksUpdate (getTasksPG db ferr) now)
  else []

/-- saveTaskPG: returns false when the pg client is null; takes the update
branch when the id is present and positive and the insert branch
otherwise; fires the alias notification from the insert branch; any query
error is caught and surfaces as false with the table unchanged. The
update branch errors out before touching any row whenever its SET list
assigns a column twice, because PostgreSQL rejects multiple assignments
to the same column; that happens exactly when the payload carries
updatedAt, since the unconditional current-time assignment is appended
after the one collected from the payload. -/
def saveTaskPG (env : Env) (sessions : List String) (db : PGDB) (task : JTask) (now : Int) (qerr : Bool) :
    Bool × PGDB × List Delivery :=
  if !env.pgClient then (false, db, [])
  else if qerr then (false, db, [])
  else if wantsUpdate task then
    if dupCols (updateAssigns task now) then (false, db, [])
    else (true, applyUpdatePG db task now (task.id.getD 0), [])
  else
    (true, insertPG db task now,
      if clawdMatch task.assignee then
        broadcastClawdNotification env sessions { task with id := some now } now
      else [])

/-- deleteTaskPG: DELETE FROM tasks WHERE id = taskId; returns true when
the query ran, whether or not a row matched; a query error is caught and
surfaces as false. -/
def deleteTaskPG (db : PGDB) (taskId : Int) (qerr : Bool) : Bool × PGDB :=
  if qerr then (false, db)
  else (true, { db with rows := db.rows.filter (fun r => r.id != taskId) })

/-- getTasksLocal: read and parse the tasks file; a read or parse error is
caught and surfaces as the empty list (the missing-file case is folded
into an empty file content). -/
def getTasksLocal (fileTasks : List JTask) (rerr : Bool) : List JTask :=
  if rerr then [] else fileTasks

/-- saveTasksLocal: fs.writeFileSync with no try/catch inside the store,
so a write failure propagates to the caller as a thrown error. -/
def saveTasksLocal (tasks : List JTask) (werr : Bool) : Except String (List JTask) :=
  if werr then Except.error "EACCES: write failed" else Except.ok tasks

/-- The replacement record written by the local update branch: spread of
the old record, then the payload, then a fresh updatedAt. -/
def localUpdateTask (old p : JTask) (now : Int) : JTask :=
  { jmerge old p with updatedAt := some now }

/-- The local update branch: findIndex by strict equality on id; when a
record matches, replace it in place, otherwise leave the list alone and
report that nothing matched. -/
def localUpdate (tasks : List JTask) (p : JTask) (now : Int) : Bool × List JTask :=
  match tasks.findIdx? (fun t => t.id == p.id) with
  | some idx => (true, tasks.set idx (localUpdateTask (tasks.getD idx emptyTask) p now))
  | none => (false, tasks)

/-- The mutable server state outside the request handlers: the relational
table and the tasks file contents. -/
structure ServerState where
  pgdb : PGDB
  localTasks : List JTask
deriving DecidableEq

/-- A parsed POST /api/tasks body. -/
structure PostData where
  action : Option String
  task : Option JTask
  taskId : Option Int
deriving DecidableEq

/-- Injected failure flags for one request: pg mutation query, local file
read, local file write, pg read during a broadcast refetch. -/
structure ErrFlags where
  qerr : Bool
  rerr : Bool
  werr : Bool
  ferr : Bool
deriving DecidableEq

/-- The HTTP response of the POST /api/tasks handler: the normal JSON
body, or the 400 branch reached when something thrown escapes to the
handler try/catch. -/
inductive Resp where
  | json (success : Bool) (timestamp : Int)
  | badRequest (msg : String)
deriving DecidableEq

/-- The truthiness test (data.taskId) guarding the delete action. -/
def jsTruthyId (x : Option Int) : Bool :=
  match x with
  | some i => i != 0
  | none => false

/-- POST action update, relational branch: push a fresh updatedAt into the
payload, save, and broadcast only on success. -/
def httpUpdatePG (env : Env) (sessions : List String) (st : ServerState) (p : JTask) (now : Int) (ef : ErrFlags) :
    Resp × ServerState × List Delivery :=
  let r := saveTaskPG env sessions st.pgdb { p with updatedAt := some now } now ef.qerr
  (Resp.json r.1 now, { st with pgdb := r.2.1 },
   r.2.2 ++ (if r.1 then broadcastTasks env sessions r.2.1 now ef.ferr else []))

/-- POST action update, file branch: read the file, replace the matching
record, write back only when a record matched; a write error escapes to
the handler try/catch; no match leaves success false. -/
def httpUpdateLocal (st : ServerState) (p : JTask) (now : Int) (ef : ErrFlags) :
    Resp × ServerState × List Delivery :=
  let tasks := getTasksLocal st.localTasks ef.rerr
  let u := localUpdate tasks p now
  if u.1 then
    match saveTasksLocal u.2 ef.werr with
    | Except.ok nf => (Resp.json true now, { st with localTasks := nf }, [])
    | Except.error m => (Resp.badRequest m, st, [])
  else (Resp.json false now, st, [])

/-- POST action add, relational branch: push fresh createdAt and updatedAt
into the payload, save, broadcast only on success. -/
def httpAddPG (env : Env) (sessions : List String) (st : ServerState) (p : JTask) (now : Int) (ef : ErrFlags) :
    Resp × ServerState × List Delivery :=
  let r := saveTaskPG env sessions st.pgdb { p with createdAt := some now, updatedAt := some now } now ef.qerr
  (Resp.json r.1 now, { st with pgdb := r.2.1 },
   r.2.2 ++ (if r.1 then broadcastTasks env sessions r.2.1 now ef.ferr else []))

/-- POST action add, file branch: append the payload with the current time
as id, createdAt and updatedAt, with no field defaulting, and write. -/
def httpAddLocal (st : ServerState) (p : JTask) (now : Int) (ef : ErrFlags) :
    Resp × ServerState × List Delivery :=
  let tasks := getTasksLocal st.localTasks ef.rerr
  let newTask : JTask := { p with id := some now, createdAt := some now, updatedAt := some now }
  match saveTasksLocal (tasks ++ [newTask]) ef.werr with
  | Except.ok nf => (Resp.json true now, { st with localTasks := nf }, [])
  | Except.error m => (Resp.badRequest m, st, [])

/-- POST action delete, relational branch. -/
def httpDeletePG (env : Env) (sessions : List String) (st : ServerState) (tid : Int) (now : Int) (ef : ErrFlags) :
    Resp × ServerState × List Delivery :=
  let r := deleteTaskPG st.pgdb tid ef.qerr
  (Resp.json r.1 now, { st with pgdb := r.2 },
   if r.1 then broadcastTasks env sessions r.2 now ef.ferr else [])

/-- POST action delete, file branch: filter the record out and write, with
success true whether or not a record matched. -/
def httpDeleteLocal (st : ServerState) (tid : Int) (now : Int) (ef : ErrFlags) :
    Resp × ServerState × List Delivery :=
  let tasks := getTasksLocal st.localTasks ef.rerr
  match saveTasksLocal (tasks.filter (fun t => t.id != some tid)) ef.werr with
  | Except.ok nf => (Resp.json true now, { st with localTasks := nf }, [])
  | Except.error m => (Resp.badRequest m, st, [])

/-- The POST /api/tasks handler: dispatch on the action name and the
presence of the required payload field, with a silent success-false
response when nothing matches. -/
def handlePost (env : Env) (sessions : List String) (st : ServerState)
    (data : PostData) (now : Int) (ef : ErrFlags) : Resp × ServerState × List Delivery :=
  if data.action == some "update" && data.task.isSome then
    if env.usePostgres then httpUpdatePG env sessions st (data.task.getD emptyTask) now ef
    else httpUpdateLocal st (data.task.getD emptyTask) now ef
  else if data.action == some "add" && data.task.isSome then
    if env.usePostgres then httpAddPG env sessions st (data.task.getD emptyTask) now ef
    else httpAddLocal st (data.task.getD emptyTask) now ef
  else if data.action == some "delete" && jsTruthyId data.taskId then
    if env.usePostgres then httpDeletePG env sessions st (data.taskId.getD 0) now ef
    else httpDeleteLocal st (data.taskId.getD 0) now ef
  else (Resp.json false now, st, [])

/-- Socket.io task:update: only acts on the relational backend; saves with
a fresh updatedAt and then broadcasts unconditionally. -/
def socketTaskUpdate (env : Env) (sessions : List String) (st : ServerState)
    (taskOpt : Option JTask) (now : Int) (ef : ErrFlags) : ServerState × List Delivery :=
  if env.usePostgres && taskOpt.isSome then
    let p := taskOpt.getD emptyTask
    let r := saveTaskPG env sessions st.pgdb { p with updatedAt := some now } now ef.qerr
    ({ st with pgdb := r.2.1 }, r.2.2 ++ broadcastTasks env sessions r.2.1 now ef.ferr)
  else (st, [])

/-- Socket.io task:add: only acts on the relational backend; saves with
fresh timestamps and then broadcasts unconditionally. -/
def socketTaskAdd (env : Env) (sessions : List String) (st : ServerState)
    (taskOpt : Option JTask) (now : Int) (ef : ErrFlags) : ServerState × List Delivery :=
  if env.usePostgres && taskOpt.isSome then
    let p := taskOpt.getD emptyTask
    let r := saveTaskPG env sessions st.pgdb { p with createdAt := some now, updatedAt := some now } now ef.qerr
    ({ st with pgdb := r.2.1 }, r.2.2 ++ broadcastTasks env sessions r.2.1 now ef.ferr)
  else (st, [])

/-- Socket.io task:delete: only acts on the relational backend; deletes
and then broadcasts unconditionally. -/
def socketTaskDelete (env : Env) (sessions : List String) (st : ServerState)
    (tidOpt : Option Int) (now : Int) (ef : ErrFlags) : ServerState × List Delivery :=
  if env.usePostgres && jsTruthyId tidOpt then
    let r := deleteTaskPG st.pgdb (tidOpt.getD 0) ef.qerr
    ({ st with pgdb := r.2 }, broadcastTasks env sessions r.2 now ef.ferr)
  else (st, [])

/-- The byColumn object of the status endpoint. -/
structure StatusCounts where
  backlog : Nat
  progress : Nat
  done : Nat
  paused : Nat
deriving DecidableEq

/-- The four bucket counts, one strict-equality filter each. -/
def byColumn (tasks : List JTask) : StatusCounts :=
  ⟨(tasks.filter (fun t => t.column == some "backlog")).length,
   (tasks.filter (fun t => t.column == some "progress")).length,
   (tasks.filter (fun t => t.column == some "done")).length,
   (tasks.filter (fun t => t.column == some "paused")).length⟩

/-- The reported total: the raw length of the collection. -/
def statusTotal (tasks : List JTask) : Nat := tasks.length

/-- GET /api/status: pick the collection from the active backend, then
report the total and the four buckets. -/
def apiStatus (env : Env) (st : ServerState) (rerr ferr : Bool) : Nat × StatusCounts :=
  let tasks := if env.usePostgres then getTasksPG st.pgdb ferr else getTasksLocal st.localTasks rerr
  (statusTotal tasks, byColumn tasks)

/-- Membership in one of the four known buckets. -/
def knownColumn (c : Option String) : Bool :=
  c == some "backlog" || c == some "progress" || c == some "done" || c == some "paused"

/-- The flags of a healthy relational-backend process. -/
def envPG : Env := ⟨true, true, true⟩

/-- The flags of a file-backend (local mode) process. -/
def envLocal : Env := ⟨false, true, false⟩

/-- No injected failures. -/
def noErr : ErrFlags := ⟨false, false, false, false⟩

/-- Closed form of the update effect on one row. -/
lemma applyUpdateRow_eq (p : JTask) (now : Int) (r : Row) :
    applyUpdateRow p now r =
      { r with
        column_name := p.column.getD r.column_name,
        title := p.title.getD r.title,
        description := p.description.getD r.description,
        updatedAt := now } := by
  unfold applyUpdateRow updateAssigns
  rcases p.column with _ | c <;> rcases p.title with _ | t <;>
    rcases p.description with _ | d <;> rcases p.updatedAt with _ | u <;> rfl

/-- The generated SET list has a duplicate column exactly when the payload
carries updatedAt: column, title and description are collected at most
once each, and updated_at is collected from the payload and then always
appended once more with the current time. -/
lemma dupCols_updateAssigns (p : JTask) (now : Int) :
    dupCols (updateAssigns p now) = p.updatedAt.isSome := by
  unfold updateAssigns
  rcases p.column with _ | c <;> rcases p.title with _ | t <;>
    rcases p.description with _ | d <;> rcases p.updatedAt with _ | u <;> rfl

/-- An update whose payload carries updatedAt generates an invalid UPDATE
(duplicate updated_at assignment); the error is caught and the call
returns false with the table unchanged. -/
lemma saveTaskPG_update_dup (env : Env) (sessions : List String) (db : PGDB)
    (p : JTask) (now : Int) (i u : Int) (hpc : env.pgClient = true)
    (hid : p.id = some i) (hpos : 0 < i) (hdup : p.updatedAt = some u) :
    saveTaskPG env sessions db p now false = (false, db, []) := by
  unfold saveTaskPG
  simp [hpc, wantsUpdate, hid, hpos, dupCols_updateAssigns, hdup]

/-- An update whose payload does not carry updatedAt generates a valid
UPDATE and applies it. -/
lemma saveTaskPG_update_valid (env : Env) (sessions : List String) (db : PGDB)
    (p : JTask) (now : Int) (i : Int) (hpc : env.pgClient = true)
    (hid : p.id = some i) (hpos : 0 < i) (hnu : p.updatedAt = none) :
    saveTaskPG env sessions db p now false =
      (true, applyUpdatePG db p now i, []) := by
  unfold saveTaskPG
  simp [hpc, wantsUpdate, hid, hpos, dupCols_updateAssigns, hnu]

lemma saveTaskPG_insert_eq (env : Env) (sessions : List String) (db : PGDB)
    (p : JTask) (now : Int) (hpc : env.pgClient = true) (hw : wantsUpdate p = false) :
    saveTaskPG env sessions db p now false =
      (true, insertPG db p now,
        if clawdMatch p.assignee then
          broadcastClawdNotification env sessions { p with id := some now } now
        else []) := by
  unfold saveTaskPG
  simp [hpc, hw]

lemma saveTaskPG_insert_fst (env : Env) (sessions : List String) (db : PGDB)
    (p : JTask) (now : Int) (hpc : env.pgClient = true) (hw : wantsUpdate p = false) :
    (saveTaskPG env sessions db p now false).1 = true := by
  rw [saveTaskPG_insert_eq env sessions db p now hpc hw]

lemma mem_insertDesc (r x : Row) (l : List Row) :
    x ∈ insertDesc r l ↔ x = r ∨ x ∈ l := by
  induction l with
  | nil => simp [insertDesc]
  | cons y ys ih =>
      unfold insertDesc
      by_cases h : y.id ≤ r.id <;> (simp [h, ih]; try tauto)

lemma mem_sortByIdDesc (x : Row) (l : List Row) :
    x ∈ sortByIdDesc l ↔ x ∈ l := by
  induction l with
  | nil => simp [sortByIdDesc]
  | cons y ys ih =>
      unfold sortByIdDesc at *
      simp [List.foldr_cons, mem_insertDesc, ih]

lemma mem_getTasksPG (t : JTask) (db : PGDB) :
    t ∈ getTasksPG db false ↔ ∃ r ∈ db.rows, t = rowToTask r := by
  unfold getTasksPG
  simp only [if_neg (by decide : ¬(false = true))]
  constructor
  · intro h
    rcases List.mem_map.mp h with ⟨r, hr, hrt⟩
    exact ⟨r, (mem_sortByIdDesc r db.rows).mp hr, hrt.symm⟩
  · rintro ⟨r, hr, rfl⟩
    exact List.mem_map.mpr ⟨r, (mem_sortByIdDesc r db.rows).mpr hr, rfl⟩

lemma mem_emitAll (s : String) (e : Event) (sessions : List String) :
    (s, e) ∈ emitAll sessions e ↔ s ∈ sessions := by
  unfold emitAll
  constructor
  · intro h
    rcases List.mem_map.mp h with ⟨a, ha, hae⟩
    cases hae
    exact ha
  · intro h
    exact List.mem_map.mpr ⟨s, h, rfl⟩

lemma filter_emitAll (sessions : List String) (e : Event) (pb : Bool)
    (hp : isTasksUpdate e = pb) :
    (emitAll sessions e).filter (fun d => isTasksUpdate d.2)
      = if pb then emitAll sessions e else [] := by
  induction sessions with
  | nil => cases pb <;> simp [emitAll]
  | cons s ss ih =>
      cases pb <;> simp_all [emitAll, List.filter_cons, hp]

lemma map_ite_id (l : List Row) (i : Int) (f : Row → Row)
    (h : ∀ r ∈ l, r.id ≠ i) :
    l.map (fun r => if r.id = i then f r else r) = l := by
  induction l with
  | nil => rfl
  | cons x xs ih =>
      have hx := h x (by simp)
      simp [hx, ih (fun r hr => h r (by simp [hr]))]

lemma bucket_sum (tasks : List JTask) :
    (byColumn tasks).backlog + (byColumn tasks).progress
      + (byColumn tasks).done + (byColumn tasks).paused
    = (tasks.filter (fun t => knownColumn t.column)).length := by
  induction tasks with
  | nil => rfl
  | cons t ts ih =>
      unfold byColumn at *
      simp only [List.filter_cons, knownColumn] at *
      by_cases h1 : (t.column == some "backlog") = true <;>
        by_cases h2 : (t.column == some "progress") = true <;>
          by_cases h3 : (t.column == some "done") = true <;>
            by_cases h4 : (t.column == some "paused") = true <;>
              simp_all <;> omega

lemma not_in_buckets (t : JTask) (tasks : List JTask)
    (hk : knownColumn t.column = false) :
    t ∉ tasks.filter (fun t0 => t0.column == some "backlog")
    ∧ t ∉ tasks.filter (fun t0 => t0.column == some "progress")
    ∧ t ∉ tasks.filter (fun t0 => t0.column == some "done")
    ∧ t ∉ tasks.filter (fun t0 => t0.column == some "paused") := by
  simp only [knownColumn, Bool.or_eq_false_iff] at hk
  refine ⟨?_, ?_, ?_, ?_⟩ <;> intro hmem <;>
    rcases List.mem_filter.mp hmem with ⟨-, hcol⟩ <;> simp_all

lemma handlePost_update (env : Env) (sessions : List String) (st : ServerState) (p : JTask) (now : Int) (ef : ErrFlags) :
    handlePost env sessions st ⟨some "update", some p, none⟩ now ef
      = if env.usePostgres then httpUpdatePG env sessions st p now ef else httpUpdateLocal st p now ef := rfl

lemma handlePost_add (env : Env) (sessions : List String) (st : ServerState) (p : JTask) (now : Int) (ef : ErrFlags) :
    handlePost env sessions st ⟨some "add", some p, none⟩ now ef
      = if env.usePostgres then httpAddPG env sessions st p now ef else httpAddLocal st p now ef := rfl

lemma handlePost_delete (env : Env) (sessions : List String) (st : ServerState) (tid : Int) (now : Int) (ef : ErrFlags)
    (h : tid ≠ 0) :
    handlePost env sessions st ⟨some "delete", none, some tid⟩ now ef
      = if env.usePostgres then httpDeletePG env sessions st tid now ef else httpDeleteLocal st tid now ef := by
  unfold handlePost
  simp [jsTruthyId, h]

lemma filter_tu_emitAll_cl (sessions : List String) (t : JTask) (m : String) (ts : Int) :
    (emitAll sessions (Event.clawdTask t m ts)).filter (fun d => isTasksUpdate d.2) = [] := by
  induction sessions with
  | nil => rfl
  | cons s ss ih => simp_all [emitAll, isTasksUpdate, List.filter_cons]

lemma filter_tu_emitAll_tu (sessions : List String) (l : List JTask) (ts : Int) :
    (emitAll sessions (Event.tasksUpdate l ts)).filter (fun d => isTasksUpdate d.2)
      = emitAll sessions (Event.tasksUpdate l ts) := by
  induction sessions with
  | nil => rfl
  | cons s ss ih => simp_all [emitAll, isTasksUpdate, List.filter_cons]

lemma bcn_trace_no_tu (env : Env) (sessions : List String) (t : JTask) (now : Int) :
    (broadcastClawdNotification env sessions t now).filter (fun d => isTasksUpdate d.2) = [] := by
  unfold broadcastClawdNotification
  split_ifs <;> simp [filter_tu_emitAll_cl]

lemma saveTaskPG_trace_no_tu (env : Env) (sessions : List String) (db : PGDB)
    (p : JTask) (now : Int) (qerr : Bool) :
    ((saveTaskPG env sessions db p now qerr).2.2).filter (fun d => isTasksUpdate d.2) = [] := by
  unfold saveTaskPG
  split_ifs <;> simp [bcn_trace_no_tu]

lemma httpUpdateLocal_trace (st : ServerState) (p : JTask) (now : Int) (ef : ErrFlags) :
    (httpUpdateLocal st p now ef).2.2 = [] := by
  simp only [httpUpdateLocal]
  split
  · split <;> rfl
  · rfl

lemma httpAddLocal_trace (st : ServerState) (p : JTask) (now : Int) (ef : ErrFlags) :
    (httpAddLocal st p now ef).2.2 = [] := by
  simp only [httpAddLocal]
  split <;> rfl

lemma httpDeleteLocal_trace (st : ServerState) (tid : Int) (now : Int) (ef : ErrFlags) :
    (httpDeleteLocal st tid now ef).2.2 = [] := by
  simp only [httpDeleteLocal]
  split <;> rfl

lemma handlePost_add_pg (sessions : List String) (st : ServerState) (p : JTask) (now : Int) (ef : ErrFlags) :
    handlePost envPG sessions st ⟨some "add", some p, none⟩ now ef
      = httpAddPG envPG sessions st p now ef := rfl

lemma handlePost_update_pg (sessions : List String) (st : ServerState) (p : JTask) (now : Int) (ef : ErrFlags) :
    handlePost envPG sessions st ⟨some "update", some p, none⟩ now ef
      = httpUpdatePG envPG sessions st p now ef := rfl

lemma handlePost_delete_pg (sessions : List String) (st : ServerState) (tid : Int) (now : Int) (ef : ErrFlags)
    (h : tid ≠ 0) :
    handlePost envPG sessions st ⟨some "delete", none, some tid⟩ now ef
      = httpDeletePG envPG sessions st tid now ef := by
  rw [handlePost_delete envPG sessions st tid now ef h]
  rfl

lemma httpAddPG_eq (sessions : List String) (st : ServerState) (p : JTask) (now : Int)
    (hw : wantsUpdate p = false) :
    httpAddPG envPG sessions st p now noErr
      = (Resp.json true now,
         { st with pgdb := (saveTaskPG envPG sessions st.pgdb { p with createdAt := some now, updatedAt := some now } now false).2.1 },
         (saveTaskPG envPG sessions st.pgdb { p with createdAt := some now, updatedAt := some now } now false).2.2
           ++ emitAll sessions (Event.tasksUpdate
                (getTasksPG (saveTaskPG envPG sessions st.pgdb { p with createdAt := some now, updatedAt := some now } now false).2.1 false) now)) := by
  have hw2 : wantsUpdate ({ p with createdAt := some now, updatedAt := some now } : JTask) = false := hw
  simp only [httpAddPG,
    saveTaskPG_insert_fst envPG sessions st.pgdb { p with createdAt := some now, updatedAt := some now } now rfl hw2,
    if_true, noErr]
  rfl

lemma httpAddPG_dup_eq (sessions : List String) (st : ServerState) (p : JTask) (now : Int)
    (i : Int) (hid : p.id = some i) (hpos : 0 < i) :
    httpAddPG envPG sessions st p now noErr = (Resp.json false now, st, []) := by
  simp only [httpAddPG, noErr,
    saveTaskPG_update_dup envPG sessions st.pgdb { p with createdAt := some now, updatedAt := some now }
      now i now rfl hid hpos rfl]
  rfl

lemma httpUpdatePG_eq (sessions : List String) (st : ServerState) (p : JTask) (now : Int)
    (hw : wantsUpdate p = false) :
    httpUpdatePG envPG sessions st p now noErr
      = (Resp.json true now,
         { st with pgdb := (saveTaskPG envPG sessions st.pgdb { p with updatedAt := some now } now false).2.1 },
         (saveTaskPG envPG sessions st.pgdb { p with updatedAt := some now } now false).2.2
           ++ emitAll sessions (Event.tasksUpdate
                (getTasksPG (saveTaskPG envPG sessions st.pgdb { p with updatedAt := some now } now false).2.1 false) now)) := by
  have hw2 : wantsUpdate ({ p with updatedAt := some now } : JTask) = false := hw
  simp only [httpUpdatePG,
    saveTaskPG_insert_fst envPG sessions st.pgdb { p with updatedAt := some now } now rfl hw2,
    if_true, noErr]
  rfl

lemma httpUpdatePG_dup_eq (sessions : List String) (st : ServerState) (p : JTask) (now : Int)
    (i : Int) (hid : p.id = some i) (hpos : 0 < i) :
    httpUpdatePG envPG sessions st p now noErr = (Resp.json false now, st, []) := by
  simp only [httpUpdatePG, noErr,
    saveTaskPG_update_dup envPG sessions st.pgdb { p with updatedAt := some now }
      now i now rfl hid hpos rfl]
  rfl

lemma emitAll_ne_nil (sessions : List String) (e : Event) (h : sessions ≠ []) :
    emitAll sessions e ≠ [] := by
  cases sessions with
  | nil => exact absurd rfl h
  | cons s ss => exact fun hcon => List.noConfusion hcon

lemma httpDeletePG_eq (sessions : List String) (st : ServerState) (tid : Int) (now : Int) :
    httpDeletePG envPG sessions st tid now noErr
      = (Resp.json true now,
         { st with pgdb := (deleteTaskPG st.pgdb tid false).2 },
         emitAll sessions (Event.tasksUpdate (getTasksPG (deleteTaskPG st.pgdb tid false).2 false) now)) := by
  simp only [httpDeletePG, noErr]
  rfl


/-- Claim C8: for every task collection the four status buckets sum to
the number of tasks whose column is one of the four known values, a task
with any other column value lies in none of the four bucket filters, and
the reported total is the raw size of the collection. -/
theorem C8_status_buckets (tasks : List JTask) :
    (byColumn tasks).backlog + (byColumn tasks).progress
      + (byColumn tasks).done + (byColumn tasks).paused
      = (tasks.filter (fun t => knownColumn t.column)).length
    ∧ statusTotal tasks = tasks.length
    ∧ (∀ t ∈ tasks, knownColumn t.column = false →
        t ∉ tasks.filter (fun t0 => t0.column == some "backlog")
        ∧ t ∉ tasks.filter (fun t0 => t0.column == some "progress")
        ∧ t ∉ tasks.filter (fun t0 => t0.column == some "done")
        ∧ t ∉ tasks.filter (fun t0 => t0.column == some "paused")) := by
  refine ⟨bucket_sum tasks, rfl, ?_⟩
  intro t _ hk
  exact not_in_buckets t tasks hk

def demoTasks : List JTask :=
  [{ emptyTask with column := some "backlog" }, { emptyTask with column := some "weird" }, emptyTask]

/-- Claim C8 witness: the bucket theorem evaluated on a concrete
collection containing an unknown column value. -/
theorem C8_status_buckets_witness :
    (byColumn demoTasks).backlog + (byColumn demoTasks).progress
      + (byColumn demoTasks).done + (byColumn demoTasks).paused
      = (demoTasks.filter (fun t => knownColumn t.column)).length :=
  (C8_status_buckets demoTasks).1

/-- Claim C6: delete returns success on both backends; on the relational
backend the listed tasks afterwards are exactly the previous ones minus
those with the deleted id, and a delete of an id no row carries leaves the
table unchanged; the file backend behaves the same on its record list. -/
theorem C6_delete_semantics :
    (∀ (db : PGDB) (tid : Int),
       (deleteTaskPG db tid false).1 = true
       ∧ (∀ t, t ∈ getTasksPG (deleteTaskPG db tid false).2 false
             ↔ t ∈ getTasksPG db false ∧ t.id ≠ some tid)
       ∧ ((∀ r ∈ db.rows, r.id ≠ tid) → (deleteTaskPG db tid false).2 = db))
  ∧ (∀ (sessions : List String) (st : ServerState) (tid : Int) (now : Int), tid ≠ 0 →
       handlePost envLocal sessions st ⟨some "delete", none, some tid⟩ now noErr
         = (Resp.json true now, ⟨st.pgdb, st.localTasks.filter (fun t => t.id != some tid)⟩, [])
       ∧ (∀ t, t ∈ st.localTasks.filter (fun t0 => t0.id != some tid)
             ↔ t ∈ st.localTasks ∧ t.id ≠ some tid)
       ∧ ((∀ t ∈ st.localTasks, t.id ≠ some tid) →
            st.localTasks.filter (fun t0 => t0.id != some tid) = st.localTasks)) := by
  constructor
  · intro db tid
    refine ⟨rfl, ?_, ?_⟩
    · intro t
      constructor
      · intro h
        rcases (mem_getTasksPG t _).mp h with ⟨r, hr, rfl⟩
        rcases List.mem_filter.mp hr with ⟨hrm, hid⟩
        refine ⟨(mem_getTasksPG _ db).mpr ⟨r, hrm, rfl⟩, ?_⟩
        simp only [rowToTask, ne_eq, Option.some.injEq]
        simpa [bne_iff_ne] using hid
      · rintro ⟨h, hne⟩
        rcases (mem_getTasksPG t db).mp h with ⟨r, hrm, rfl⟩
        refine (mem_getTasksPG _ _).mpr ⟨r, ?_, rfl⟩
        refine List.mem_filter.mpr ⟨hrm, ?_⟩
        simp only [rowToTask, ne_eq, Option.some.injEq] at hne
        simpa [bne_iff_ne] using hne
    · intro h
      unfold deleteTaskPG
      have hf : db.rows.filter (fun r => r.id != tid) = db.rows :=
        List.filter_eq_self.mpr (fun r hr => by simpa [bne_iff_ne] using h r hr)
      simp [hf]
  · intro sessions st tid now hnz
    have hred := handlePost_delete envLocal sessions st tid now noErr hnz
    refine ⟨?_, ?_, ?_⟩
    · rw [hred]; rfl
    · intro t
      rw [List.mem_filter]
      simp [bne_iff_ne]
    · intro h
      exact List.filter_eq_self.mpr (fun t ht => by simpa [bne_iff_ne] using h t ht)

def rowA : Row := ⟨4, "T", "", "backlog", "", "", "medium", "", "", 10, 10⟩
def stA : ServerState := ⟨⟨[rowA], 9⟩, [{ emptyTask with id := some 7 }]⟩

/-- Claim C6 witness: the delete theorem evaluated on a concrete table
and file store. -/
theorem C6_delete_semantics_witness :
    (deleteTaskPG stA.pgdb 3 false).1 = true
    ∧ handlePost envLocal ["s"] stA ⟨some "delete", none, some 3⟩ 50 noErr
        = (Resp.json true 50, ⟨stA.pgdb, stA.localTasks.filter (fun t => t.id != some 3)⟩, []) :=
  ⟨(C6_delete_semantics.1 stA.pgdb 3).1,
   (C6_delete_semantics.2 ["s"] stA 3 50 (by decide)).1⟩

/-- Claim C1 (amended): on the relational backend every update the
program issues carries updatedAt in the payload (the handlers inject it),
which makes the generated UPDATE assign updated_at twice; PostgreSQL
rejects it, the store returns false and no field of any row changes, so
the POST update action answers success false with the state untouched.
Only an update payload without updatedAt — which no caller produces —
executes: it changes only the matched row, applies exactly the supplied
column, title and description values, leaves tag, assignee, priority,
emoji, dueDate and createdAt untouched, and stamps updatedAt with the
current time. The file backend replaces only the matched record, stamps
updatedAt, and preserves every field absent from the payload — createdAt
included, provided the payload does not itself carry createdAt. -/
theorem C1_update_frame :
    (∀ (env : Env) (sessions : List String) (db : PGDB) (p : JTask) (now : Int) (i u : Int),
        env.pgClient = true → p.id = some i → 0 < i → p.updatedAt = some u →
        saveTaskPG env sessions db p now false = (false, db, []))
  ∧ (∀ (sessions : List String) (st : ServerState) (p : JTask) (now : Int) (i : Int),
        p.id = some i → 0 < i →
        handlePost envPG sessions st ⟨some "update", some p, none⟩ now noErr
          = (Resp.json false now, st, []))
  ∧ (∀ (env : Env) (sessions : List String) (db : PGDB) (p : JTask) (now : Int) (i : Int),
        env.pgClient = true → p.id = some i → 0 < i → p.updatedAt = none →
        (saveTaskPG env sessions db p now false).1 = true
        ∧ (saveTaskPG env sessions db p now false).2.1.rows
            = db.rows.map (fun r => if r.id = i then applyUpdateRow p now r else r)
        ∧ (saveTaskPG env sessions db p now false).2.1.nextId = db.nextId)
  ∧ (∀ (p : JTask) (now : Int) (r : Row), p.updatedAt = none →
        (applyUpdateRow p now r).id = r.id
        ∧ (applyUpdateRow p now r).tag = r.tag
        ∧ (applyUpdateRow p now r).assignee = r.assignee
        ∧ (applyUpdateRow p now r).priority = r.priority
        ∧ (applyUpdateRow p now r).emoji = r.emoji
        ∧ (applyUpdateRow p now r).dueDate = r.dueDate
        ∧ (applyUpdateRow p now r).createdAt = r.createdAt
        ∧ (applyUpdateRow p now r).updatedAt = now
        ∧ (p.title = none → (applyUpdateRow p now r).title = r.title)
        ∧ (p.description = none → (applyUpdateRow p now r).description = r.description)
        ∧ (p.column = none → (applyUpdateRow p now r).column_name = r.column_name)
        ∧ (∀ v, p.title = some v → (applyUpdateRow p now r).title = v)
        ∧ (∀ v, p.description = some v → (applyUpdateRow p now r).description = v)
        ∧ (∀ v, p.column = some v → (applyUpdateRow p now r).column_name = v))
  ∧ (∀ (sessions : List String) (st : ServerState) (p : JTask) (now : Int) (idx : Nat),
        st.localTasks.findIdx? (fun t => t.id == p.id) = some idx →
        handlePost envLocal sessions st ⟨some "update", some p, none⟩ now noErr
          = (Resp.json true now,
             ⟨st.pgdb, st.localTasks.set idx
                (localUpdateTask (st.localTasks.getD idx emptyTask) p now)⟩, []))
  ∧ (∀ (old p : JTask) (now : Int),
        (localUpdateTask old p now).updatedAt = some now
        ∧ (p.createdAt = none → (localUpdateTask old p now).createdAt = old.createdAt)
        ∧ (p.title = none → (localUpdateTask old p now).title = old.title)
        ∧ (p.description = none → (localUpdateTask old p now).description = old.description)
        ∧ (p.column = none → (localUpdateTask old p now).column = old.column)
        ∧ (p.tag = none → (localUpdateTask old p now).tag = old.tag)
        ∧ (p.assignee = none → (localUpdateTask old p now).assignee = old.assignee)
        ∧ (p.priority = none → (localUpdateTask old p now).priority = old.priority)
        ∧ (p.emoji = none → (localUpdateTask old p now).emoji = old.emoji)
        ∧ (p.dueDate = none → (localUpdateTask old p now).dueDate = old.dueDate)
        ∧ (p.id = none → (localUpdateTask old p now).id = old.id)) := by
  refine ⟨?_, ?_, ?_, ?_, ?_, ?_⟩
  · intro env sessions db p now i u hpc hid hpos hdup
    exact saveTaskPG_update_dup env sessions db p now i u hpc hid hpos hdup
  · intro sessions st p now i hid hpos
    rw [handlePost_update_pg, httpUpdatePG_dup_eq sessions st p now i hid hpos]
  · intro env sessions db p now i hpc hid hpos hnu
    rw [saveTaskPG_update_valid env sessions db p now i hpc hid hpos hnu]
    refine ⟨rfl, ?_, rfl⟩
    simp [applyUpdatePG, hid]
  · intro p now r hnu
    rw [applyUpdateRow_eq]
    refine ⟨rfl, rfl, rfl, rfl, rfl, rfl, rfl, rfl, ?_, ?_, ?_, ?_, ?_, ?_⟩ <;>
      intro h <;> try intro hv
    all_goals simp_all
  · intro sessions st p now idx hidx
    rw [handlePost_update]
    show httpUpdateLocal st p now noErr = _
    unfold httpUpdateLocal
    simp only [getTasksLocal, noErr, if_neg (by decide : ¬(false = true)), localUpdate, hidx]
    rfl
  · intro old p now
    unfold localUpdateTask jmerge
    refine ⟨rfl, ?_, ?_, ?_, ?_, ?_, ?_, ?_, ?_, ?_, ?_⟩ <;> intro h <;> simp [pick, h]

def c1old : JTask := { emptyTask with id := some 1, title := some "Old", createdAt := some 100, updatedAt := some 100 }
def c1payload : JTask := { emptyTask with id := some 1, createdAt := some 999 }
def c1st : ServerState := ⟨⟨[], 1⟩, [c1old]⟩

/-- Claim C1 counterexample: on the file backend an update payload that
itself carries createdAt overwrites the stored createdAt (100 becomes
999), so the claim that createdAt is unchanged on every update fails as
stated. -/
theorem C1_createdAt_can_change :
    c1old.createdAt = some 100
    ∧ c1payload.id = some 1
    ∧ ((handlePost envLocal [] c1st ⟨some "update", some c1payload, none⟩ 200 noErr).2.1.localTasks.getD 0 emptyTask).createdAt
        = some 999 := by decide

def rowW : Row := ⟨3, "Old", "d", "backlog", "tg", "as", "high", "e", "2026-01-01", 100, 100⟩
def dbW : PGDB := ⟨[rowW], 9⟩
def pW : JTask := { emptyTask with id := some 3, title := some "New" }
def oldW : JTask := { emptyTask with id := some 3, title := some "B", createdAt := some 40 }
def stW : ServerState := ⟨⟨[], 1⟩, [oldW]⟩

/-- A concrete update payload carrying updatedAt, as every caller of the
relational update path produces. -/
def pWu : JTask := { emptyTask with id := some 3, title := some "New", updatedAt := some 123 }

/-- Claim C1 witness: the amended update theorem evaluated on a concrete
payload carrying updatedAt (relational failure), a concrete payload
without updatedAt (valid relational update), and a concrete file store. -/
theorem C1_update_frame_witness :
    saveTaskPG envPG ["s"] dbW pWu 500 false = (false, dbW, [])
    ∧ handlePost envPG ["s"] stW ⟨some "update", some pW, none⟩ 500 noErr
        = (Resp.json false 500, stW, [])
    ∧ (saveTaskPG envPG ["s"] dbW pW 500 false).1 = true
    ∧ handlePost envLocal ["s"] stW ⟨some "update", some pW, none⟩ 500 noErr
        = (Resp.json true 500,
           ⟨stW.pgdb, stW.localTasks.set 0 (localUpdateTask (stW.localTasks.getD 0 emptyTask) pW 500)⟩, [])
    ∧ (localUpdateTask oldW pW 500).updatedAt = some 500 :=
  ⟨C1_update_frame.1 envPG ["s"] dbW pWu 500 3 123 rfl rfl (by decide) rfl,
   C1_update_frame.2.1 ["s"] stW pW 500 3 rfl (by decide),
   (C1_update_frame.2.2.1 envPG ["s"] dbW pW 500 3 rfl rfl (by decide) rfl).1,
   C1_update_frame.2.2.2.2.1 ["s"] stW pW 500 0 (by decide),
   (C1_update_frame.2.2.2.2.2 oldW pW 500).1⟩

/-- Claim C2 (amended): a relational insert appends one row carrying the
sequence value as id (fresh whenever all existing ids are below the
sequence value), the current time as both createdAt and updatedAt, and the
documented defaults for every missing optional field; a file-backend add
appends the payload with the current wall-clock time as id and as both
timestamps and performs no field defaulting. -/
theorem C2_insert_semantics :
    (∀ (env : Env) (sessions : List String) (db : PGDB) (p : JTask) (now : Int),
        env.pgClient = true → wantsUpdate p = false →
        (saveTaskPG env sessions db p now false).1 = true
        ∧ (saveTaskPG env sessions db p now false).2.1.rows = db.rows ++ [newRowOf db p now]
        ∧ (saveTaskPG env sessions db p now false).2.1.nextId = db.nextId + 1
        ∧ (newRowOf db p now).id = db.nextId
        ∧ (newRowOf db p now).createdAt = now
        ∧ (newRowOf db p now).updatedAt = now
        ∧ (p.column = none → (newRowOf db p now).column_name = "backlog")
        ∧ (p.priority = none → (newRowOf db p now).priority = "medium")
        ∧ (p.title = none → (newRowOf db p now).title = "")
        ∧ (p.description = none → (newRowOf db p now).description = "")
        ∧ (p.tag = none → (newRowOf db p now).tag = "")
        ∧ (p.assignee = none → (newRowOf db p now).assignee = "")
        ∧ (p.emoji = none → (newRowOf db p now).emoji = "")
        ∧ (p.dueDate = none → (newRowOf db p now).dueDate = "")
        ∧ ((∀ r ∈ db.rows, r.id < db.nextId) → ∀ r ∈ db.rows, r.id ≠ (newRowOf db p now).id))
  ∧ (∀ (sessions : List String) (st : ServerState) (p : JTask) (now : Int),
        handlePost envLocal sessions st ⟨some "add", some p, none⟩ now noErr
          = (Resp.json true now,
             ⟨st.pgdb, st.localTasks
                ++ [{ p with id := some now, createdAt := some now, updatedAt := some now }]⟩, [])
        ∧ ({ p with id := some now, createdAt := some now, updatedAt := some now } : JTask).column = p.column
        ∧ ({ p with id := some now, createdAt := some now, updatedAt := some now } : JTask).priority = p.priority
        ∧ ({ p with id := some now, createdAt := some now, updatedAt := some now } : JTask).id = some now) := by
  constructor
  · intro env sessions db p now hpc hw
    rw [saveTaskPG_insert_eq env sessions db p now hpc hw]
    refine ⟨rfl, rfl, rfl, rfl, rfl, rfl, ?_, ?_, ?_, ?_, ?_, ?_, ?_, ?_, ?_⟩
    · intro h; simp [newRowOf, jsOrStr, h]
    · intro h; simp [newRowOf, jsOrStr, h]
    · intro h; simp [newRowOf, jsOrStr, h]
    · intro h; simp [newRowOf, jsOrStr, h]
    · intro h; simp [newRowOf, jsOrStr, h]
    · intro h; simp [newRowOf, jsOrStr, h]
    · intro h; simp [newRowOf, jsOrStr, h]
    · intro h; simp [newRowOf, jsOrStr, h]
    · intro hb r hr
      have := hb r hr
      simp only [newRowOf]
      omega
  · intro sessions st p now
    refine ⟨?_, rfl, rfl, rfl⟩
    rw [handlePost_add]
    show httpAddLocal st p now noErr = _
    unfold httpAddLocal
    simp only [getTasksLocal, noErr, if_neg (by decide : ¬(false = true)), saveTasksLocal]

def c2st : ServerState := ⟨⟨[], 1⟩, [{ emptyTask with id := some 5, title := some "Existing" }]⟩
def c2res : ServerState :=
  (handlePost envLocal [] c2st ⟨some "add", some { emptyTask with title := some "X" }, none⟩ 5 noErr).2.1

/-- Claim C2 counterexample: a file-backend add of a payload with no
column leaves column absent instead of backlog and no priority defaulting
happens, and its timestamp id (5) collides with an existing task whose id
is also 5, so the claim fails as stated. -/
theorem C2_local_insert_no_defaults :
    (c2res.localTasks.getD 1 emptyTask).column = none
    ∧ (c2res.localTasks.getD 1 emptyTask).column ≠ some "backlog"
    ∧ (c2res.localTasks.getD 1 emptyTask).priority = none
    ∧ (c2res.localTasks.getD 1 emptyTask).id = some 5
    ∧ (c2st.localTasks.getD 0 emptyTask).id = some 5 := by decide

def dbW2 : PGDB := ⟨[rowA], 9⟩
def pW2 : JTask := { emptyTask with title := some "T", assignee := some "maria" }

/-- Claim C2 witness: the amended insert theorem evaluated on a concrete
relational table and file store. -/
theorem C2_insert_semantics_witness :
    (saveTaskPG envPG ["s"] dbW2 pW2 600 false).2.1.rows = dbW2.rows ++ [newRowOf dbW2 pW2 600]
    ∧ handlePost envLocal ["s"] stW ⟨some "add", some pW2, none⟩ 600 noErr
        = (Resp.json true 600,
           ⟨stW.pgdb, stW.localTasks
              ++ [{ pW2 with id := some 600, createdAt := some 600, updatedAt := some 600 }]⟩, []) :=
  ⟨(C2_insert_semantics.1 envPG ["s"] dbW2 pW2 600 rfl (by decide)).2.1,
   (C2_insert_semantics.2 ["s"] stW pW2 600).1⟩

/-- Claim C5 (amended): an update upsert whose positive id matches no row
is a no-op returning true on the relational backend only when its payload
does not carry updatedAt, making the generated UPDATE valid; the update
payloads the program actually issues always carry updatedAt, so the
relational call returns false (invalid duplicate updated_at assignment)
with the table unchanged, and the POST update action answers success
false; on the file backend a missing-id update is a no-op and the handler
answers success false. -/
theorem C5_missing_update_semantics :
    (∀ (env : Env) (sessions : List String) (db : PGDB) (p : JTask) (now : Int) (i : Int),
        env.pgClient = true → p.id = some i → 0 < i → p.updatedAt = none →
        (∀ r ∈ db.rows, r.id ≠ i) →
        saveTaskPG env sessions db p now false = (true, db, []))
  ∧ (∀ (env : Env) (sessions : List String) (db : PGDB) (p : JTask) (now : Int) (i u : Int),
        env.pgClient = true → p.id = some i → 0 < i → p.updatedAt = some u →
        saveTaskPG env sessions db p now false = (false, db, []))
  ∧ (∀ (sessions : List String) (st : ServerState) (p : JTask) (now : Int) (i : Int),
        p.id = some i → 0 < i →
        handlePost envPG sessions st ⟨some "update", some p, none⟩ now noErr
          = (Resp.json false now, st, []))
  ∧ (∀ (sessions : List String) (st : ServerState) (p : JTask) (now : Int),
        st.localTasks.findIdx? (fun t => t.id == p.id) = none →
        handlePost envLocal sessions st ⟨some "update", some p, none⟩ now noErr
          = (Resp.json false now, st, [])) := by
  refine ⟨?_, ?_, ?_, ?_⟩
  · intro env sessions db p now i hpc hid hpos hnu hno
    rw [saveTaskPG_update_valid env sessions db p now i hpc hid hpos hnu]
    have : applyUpdatePG db p now i = db := by
      unfold applyUpdatePG
      rw [map_ite_id db.rows i _ hno]
    rw [this]
  · intro env sessions db p now i u hpc hid hpos hdup
    exact saveTaskPG_update_dup env sessions db p now i u hpc hid hpos hdup
  · intro sessions st p now i hid hpos
    rw [handlePost_update_pg, httpUpdatePG_dup_eq sessions st p now i hid hpos]
  · intro sessions st p now hidx
    rw [handlePost_update]
    show httpUpdateLocal st p now noErr = _
    unfold httpUpdateLocal
    simp only [getTasksLocal, noErr, if_neg (by decide : ¬(false = true)), localUpdate, hidx]

def c5st : ServerState := ⟨⟨[], 1⟩, [{ emptyTask with id := some 1, title := some "A" }]⟩
def c5payload : JTask := { emptyTask with id := some 99, title := some "B" }

/-- Claim C5 counterexample: on the file backend an update for the
missing id 99 answers success false, so the claim that a missing target
row on update is treated as success on both backends fails as stated. -/
theorem C5_local_missing_update_not_success :
    c5payload.id = some 99
    ∧ (handlePost envLocal [] c5st ⟨some "update", some c5payload, none⟩ 10 noErr).1 = Resp.json false 10
    ∧ (handlePost envLocal [] c5st ⟨some "update", some c5payload, none⟩ 10 noErr).2.1 = c5st := by decide

def dbW3 : PGDB := ⟨[rowA], 9⟩
def pW3 : JTask := { emptyTask with id := some 77, title := some "Z" }
def stW3 : ServerState := ⟨⟨[], 1⟩, [{ emptyTask with id := some 1 }]⟩

/-- Claim C5 witness: the amended missing-update theorem evaluated on a
concrete table and file store. -/
theorem C5_missing_update_semantics_witness :
    saveTaskPG envPG ["s"] dbW3 pW3 40 false = (true, dbW3, [])
    ∧ saveTaskPG envPG ["s"] dbW3 pWu 40 false = (false, dbW3, [])
    ∧ handlePost envPG ["s"] stW3 ⟨some "update", some pW3, none⟩ 40 noErr
        = (Resp.json false 40, stW3, [])
    ∧ handlePost envLocal ["s"] stW3 ⟨some "update", some pW3, none⟩ 40 noErr
        = (Resp.json false 40, stW3, []) :=
  ⟨C5_missing_update_semantics.1 envPG ["s"] dbW3 pW3 40 77 rfl rfl (by decide) rfl (by decide),
   C5_missing_update_semantics.2.1 envPG ["s"] dbW3 pWu 40 3 123 rfl rfl (by decide) rfl,
   C5_missing_update_semantics.2.2.1 ["s"] stW3 pW3 40 77 rfl (by decide),
   C5_missing_update_semantics.2.2.2 ["s"] stW3 pW3 40 (by decide)⟩

/-- Claim C3 (amended): every relational store operation catches its own
query error and surfaces false, respectively the empty list, with the
table unchanged, and the local read surfaces the empty list; but a local
write error is thrown out of the store and is caught only by the request
handler try/catch, which answers with a 400 error body instead of a
success-false JSON body. -/
theorem C3_store_error_surface :
    (∀ (env : Env) (sessions : List String) (db : PGDB) (p : JTask) (now : Int),
        saveTaskPG env sessions db p now true = (false, db, []))
  ∧ (∀ (db : PGDB) (tid : Int), deleteTaskPG db tid true = (false, db))
  ∧ (∀ (db : PGDB), getTasksPG db true = [])
  ∧ (∀ (fileTasks : List JTask), getTasksLocal fileTasks true = [])
  ∧ (∀ (tasks : List JTask), saveTasksLocal tasks false = Except.ok tasks)
  ∧ (∀ (tasks : List JTask), saveTasksLocal tasks true = Except.error "EACCES: write failed")
  ∧ (∀ (sessions : List String) (st : ServerState) (p : JTask) (now : Int),
        handlePost envLocal sessions st ⟨some "add", some p, none⟩ now ⟨false, false, true, false⟩
          = (Resp.badRequest "EACCES: write failed", st, [])) := by
  refine ⟨?_, fun _ _ => rfl, fun _ => rfl, fun _ => rfl, fun _ => rfl, fun _ => rfl, ?_⟩
  · intro env sessions db p now
    unfold saveTaskPG
    rcases env with ⟨u, h, pc⟩
    cases pc <;> rfl
  · intro sessions st p now
    rw [handlePost_add]
    rfl

def c3st : ServerState := ⟨⟨[], 1⟩, []⟩

/-- Claim C3 counterexample: a file write error inside the store escapes
as a thrown error and the POST handler answers 400, not success false, so
the claim that no store operation ever throws fails as stated. -/
theorem C3_local_write_escapes :
    saveTasksLocal [] true = Except.error "EACCES: write failed"
    ∧ (handlePost envLocal [] c3st ⟨some "add", some { emptyTask with title := some "X" }, none⟩ 7 ⟨false, false, true, false⟩).1
        = Resp.badRequest "EACCES: write failed"
    ∧ Resp.badRequest "EACCES: write failed" ≠ Resp.json false 7 :=
  ⟨rfl, by decide, by decide⟩

/-- Claim C4: every POST mutation that completes successfully against the
relational backend produces exactly one tasks:update event, built by
refetching the full list from the post-mutation table, delivered to every
connected session: add and update payloads without a positive id succeed
and broadcast, add and update payloads carrying a positive id fail (their
generated UPDATE assigns updated_at twice and is rejected) answering
success false with no event at all, and deletes succeed and broadcast;
and no mutation against the file backend, through HTTP or through the
socket operations, ever produces any event. -/
theorem C4_broadcast_on_pg_mutations :
    (∀ (sessions : List String) (st : ServerState) (p : JTask) (now : Int),
        wantsUpdate p = false →
        (handlePost envPG sessions st ⟨some "add", some p, none⟩ now noErr).1 = Resp.json true now
        ∧ ((handlePost envPG sessions st ⟨some "add", some p, none⟩ now noErr).2.2.filter (fun d => isTasksUpdate d.2))
            = emitAll sessions (Event.tasksUpdate
                (getTasksPG (handlePost envPG sessions st ⟨some "add", some p, none⟩ now noErr).2.1.pgdb false) now)
        ∧ ∀ s ∈ sessions,
            (s, Event.tasksUpdate
                (getTasksPG (handlePost envPG sessions st ⟨some "add", some p, none⟩ now noErr).2.1.pgdb false) now)
              ∈ (handlePost envPG sessions st ⟨some "add", some p, none⟩ now noErr).2.2)
  ∧ (∀ (sessions : List String) (st : ServerState) (p : JTask) (now : Int),
        wantsUpdate p = false →
        (handlePost envPG sessions st ⟨some "update", some p, none⟩ now noErr).1 = Resp.json true now
        ∧ ((handlePost envPG sessions st ⟨some "update", some p, none⟩ now noErr).2.2.filter (fun d => isTasksUpdate d.2))
            = emitAll sessions (Event.tasksUpdate
                (getTasksPG (handlePost envPG sessions st ⟨some "update", some p, none⟩ now noErr).2.1.pgdb false) now)
        ∧ ∀ s ∈ sessions,
            (s, Event.tasksUpdate
                (getTasksPG (handlePost envPG sessions st ⟨some "update", some p, none⟩ now noErr).2.1.pgdb false) now)
              ∈ (handlePost envPG sessions st ⟨some "update", some p, none⟩ now noErr).2.2)
  ∧ (∀ (sessions : List String) (st : ServerState) (p : JTask) (now : Int) (i : Int),
        p.id = some i → 0 < i →
        handlePost envPG sessions st ⟨some "add", some p, none⟩ now noErr = (Resp.json false now, st, [])
        ∧ handlePost envPG sessions st ⟨some "update", some p, none⟩ now noErr = (Resp.json false now, st, []))
  ∧ (∀ (sessions : List String) (st : ServerState) (tid : Int) (now : Int), tid ≠ 0 →
        (handlePost envPG sessions st ⟨some "delete", none, some tid⟩ now noErr).1 = Resp.json true now
        ∧ ((handlePost envPG sessions st ⟨some "delete", none, some tid⟩ now noErr).2.2.filter (fun d => isTasksUpdate d.2))
            = emitAll sessions (Event.tasksUpdate
                (getTasksPG (handlePost envPG sessions st ⟨some "delete", none, some tid⟩ now noErr).2.1.pgdb false) now)
        ∧ ∀ s ∈ sessions,
            (s, Event.tasksUpdate
                (getTasksPG (handlePost envPG sessions st ⟨some "delete", none, some tid⟩ now noErr).2.1.pgdb false) now)
              ∈ (handlePost envPG sessions st ⟨some "delete", none, some tid⟩ now noErr).2.2)
  ∧ (∀ (env : Env) (sessions : List String) (st : ServerState) (data : PostData) (now : Int) (ef : ErrFlags),
        env.usePostgres = false → (handlePost env sessions st data now ef).2.2 = [])
  ∧ (∀ (env : Env) (sessions : List String) (st : ServerState) (x : Option JTask) (y : Option Int)
        (now : Int) (ef : ErrFlags), env.usePostgres = false →
        socketTaskAdd env sessions st x now ef = (st, [])
        ∧ socketTaskUpdate env sessions st x now ef = (st, [])
        ∧ socketTaskDelete env sessions st y now ef = (st, [])) := by
  refine ⟨?_, ?_, ?_, ?_, ?_, ?_⟩
  · intro sessions st p now hw
    rw [handlePost_add_pg, httpAddPG_eq sessions st p now hw]
    refine ⟨rfl, ?_, ?_⟩
    · rw [List.filter_append, saveTaskPG_trace_no_tu, filter_tu_emitAll_tu, List.nil_append]
    · intro s hs
      exact List.mem_append_right _ ((mem_emitAll s _ sessions).mpr hs)
  · intro sessions st p now hw
    rw [handlePost_update_pg, httpUpdatePG_eq sessions st p now hw]
    refine ⟨rfl, ?_, ?_⟩
    · rw [List.filter_append, saveTaskPG_trace_no_tu, filter_tu_emitAll_tu, List.nil_append]
    · intro s hs
      exact List.mem_append_right _ ((mem_emitAll s _ sessions).mpr hs)
  · intro sessions st p now i hid hpos
    constructor
    · rw [handlePost_add_pg, httpAddPG_dup_eq sessions st p now i hid hpos]
    · rw [handlePost_update_pg, httpUpdatePG_dup_eq sessions st p now i hid hpos]
  · intro sessions st tid now hnz
    rw [handlePost_delete_pg sessions st tid now noErr hnz, httpDeletePG_eq]
    refine ⟨rfl, ?_, ?_⟩
    · rw [filter_tu_emitAll_tu]
    · intro s hs
      exact (mem_emitAll s _ sessions).mpr hs
  · intro env sessions st data now ef henv
    unfold handlePost
    split
    · simp [henv, httpUpdateLocal_trace]
    · split
      · simp [henv, httpAddLocal_trace]
      · split
        · simp [henv, httpDeleteLocal_trace]
        · rfl
  · intro env sessions st x y now ef henv
    refine ⟨?_, ?_, ?_⟩ <;> simp [socketTaskAdd, socketTaskUpdate, socketTaskDelete, henv]

def stB : ServerState := ⟨⟨[rowA], 9⟩, []⟩

/-- Claim C4 witness: the broadcast theorem evaluated on concrete
mutations against both backends. -/
theorem C4_broadcast_on_pg_mutations_witness :
    (handlePost envPG ["a", "b"] stB ⟨some "add", some pW2, none⟩ 70 noErr).1 = Resp.json true 70
    ∧ handlePost envPG ["a", "b"] stB ⟨some "update", some pWu, none⟩ 70 noErr
        = (Resp.json false 70, stB, [])
    ∧ (handlePost envPG ["a", "b"] stB ⟨some "delete", none, some 4⟩ 70 noErr).1 = Resp.json true 70
    ∧ (handlePost envLocal ["a", "b"] stB ⟨some "add", some pW2, none⟩ 70 noErr).2.2 = []
    ∧ socketTaskAdd envLocal ["a", "b"] stB (some pW2) 70 noErr = (stB, []) :=
  ⟨(C4_broadcast_on_pg_mutations.1 ["a", "b"] stB pW2 70 rfl).1,
   (C4_broadcast_on_pg_mutations.2.2.1 ["a", "b"] stB pWu 70 3 rfl (by decide)).2,
   (C4_broadcast_on_pg_mutations.2.2.2.1 ["a", "b"] stB 4 70 (by decide)).1,
   C4_broadcast_on_pg_mutations.2.2.2.2.1 envLocal ["a", "b"] stB ⟨some "add", some pW2, none⟩ 70 noErr rfl,
   (C4_broadcast_on_pg_mutations.2.2.2.2.2 envLocal ["a", "b"] stB (some pW2) none 70 noErr rfl).1⟩

/-- Claim C7 (amended): on the relational backend, the add operation (for
payloads without a positive id) and the delete operation arriving over
the socket produce exactly the state change and the event trace of the
corresponding HTTP mutation, the broadcast going to every session with no
echo suppression, and likewise the update operation whenever its payload
has no positive id (the write then succeeds as an insert); but an update
for a positive id diverges: the store write fails (its generated UPDATE
assigns updated_at twice and is rejected), the socket handler still
broadcasts the unchanged list unconditionally, while the HTTP handler
answers failure and emits nothing. On the file backend the three socket
operations do nothing at all, while HTTP still mutates the file. -/
theorem C7_socket_http_equivalence :
    (∀ (sessions : List String) (st : ServerState) (p : JTask) (now : Int),
        wantsUpdate p = false →
        socketTaskAdd envPG sessions st (some p) now noErr
          = ((handlePost envPG sessions st ⟨some "add", some p, none⟩ now noErr).2.1,
             (handlePost envPG sessions st ⟨some "add", some p, none⟩ now noErr).2.2))
  ∧ (∀ (sessions : List String) (st : ServerState) (p : JTask) (now : Int),
        wantsUpdate p = false →
        socketTaskUpdate envPG sessions st (some p) now noErr
          = ((handlePost envPG sessions st ⟨some "update", some p, none⟩ now noErr).2.1,
             (handlePost envPG sessions st ⟨some "update", some p, none⟩ now noErr).2.2))
  ∧ (∀ (sessions : List String) (st : ServerState) (tid : Int) (now : Int), tid ≠ 0 →
        socketTaskDelete envPG sessions st (some tid) now noErr
          = ((handlePost envPG sessions st ⟨some "delete", none, some tid⟩ now noErr).2.1,
             (handlePost envPG sessions st ⟨some "delete", none, some tid⟩ now noErr).2.2))
  ∧ (∀ (sessions : List String) (st : ServerState) (p : JTask) (now : Int) (i : Int),
        p.id = some i → 0 < i →
        socketTaskUpdate envPG sessions st (some p) now noErr
          = (st, emitAll sessions (Event.tasksUpdate (getTasksPG st.pgdb false) now))
        ∧ handlePost envPG sessions st ⟨some "update", some p, none⟩ now noErr
            = (Resp.json false now, st, [])
        ∧ (sessions ≠ [] →
            (socketTaskUpdate envPG sessions st (some p) now noErr).2
              ≠ (handlePost envPG sessions st ⟨some "update", some p, none⟩ now noErr).2.2))
  ∧ (∀ (sessions : List String) (st : ServerState) (x : Option JTask) (y : Option Int)
        (now : Int) (ef : ErrFlags),
        socketTaskAdd envLocal sessions st x now ef = (st, [])
        ∧ socketTaskUpdate envLocal sessions st x now ef = (st, [])
        ∧ socketTaskDelete envLocal sessions st y now ef = (st, [])) := by
  refine ⟨?_, ?_, ?_, ?_, ?_⟩
  · intro sessions st p now hw
    rw [handlePost_add_pg, httpAddPG_eq sessions st p now hw]
    rfl
  · intro sessions st p now hw
    rw [handlePost_update_pg, httpUpdatePG_eq sessions st p now hw]
    rfl
  · intro sessions st tid now hnz
    rw [handlePost_delete_pg sessions st tid now noErr hnz, httpDeletePG_eq]
    have hj : jsTruthyId (some tid) = true := by simp [jsTruthyId, hnz]
    simp only [socketTaskDelete, hj]
    rfl
  · intro sessions st p now i hid hpos
    have hsock : socketTaskUpdate envPG sessions st (some p) now noErr
        = (st, emitAll sessions (Event.tasksUpdate (getTasksPG st.pgdb false) now)) := by
      simp only [socketTaskUpdate, Option.getD_some, noErr,
        saveTaskPG_update_dup envPG sessions st.pgdb { p with updatedAt := some now }
          now i now rfl hid hpos rfl]
      rfl
    have hhttp : handlePost envPG sessions st ⟨some "update", some p, none⟩ now noErr
        = (Resp.json false now, st, []) := by
      rw [handlePost_update_pg, httpUpdatePG_dup_eq sessions st p now i hid hpos]
    refine ⟨hsock, hhttp, ?_⟩
    intro hne
    rw [hsock, hhttp]
    exact emitAll_ne_nil sessions _ hne
  · intro sessions st x y now ef
    refine ⟨rfl, rfl, rfl⟩

def c7st : ServerState := ⟨⟨[], 1⟩, []⟩
def c7p : JTask := { emptyTask with title := some "X" }

/-- Claim C7 counterexample: with the file backend active, the socket
add operation leaves the state untouched while the HTTP add changes it,
so the claim that the socket operations are identical in effect to the
HTTP actions on whichever backend is active fails as stated. -/
theorem C7_socket_noop_on_file_backend :
    socketTaskAdd envLocal [] c7st (some c7p) 9 noErr = (c7st, [])
    ∧ (handlePost envLocal [] c7st ⟨some "add", some c7p, none⟩ 9 noErr).2.1 ≠ c7st := by
  refine ⟨rfl, by decide⟩

/-- Claim C7 witness: the equivalence theorem evaluated on concrete
socket and HTTP mutations, including the diverging positive-id update. -/
theorem C7_socket_http_equivalence_witness :
    socketTaskAdd envPG ["a"] stB (some pW2) 80 noErr
      = ((handlePost envPG ["a"] stB ⟨some "add", some pW2, none⟩ 80 noErr).2.1,
         (handlePost envPG ["a"] stB ⟨some "add", some pW2, none⟩ 80 noErr).2.2)
    ∧ socketTaskDelete envPG ["a"] stB (some 4) 80 noErr
      = ((handlePost envPG ["a"] stB ⟨some "delete", none, some 4⟩ 80 noErr).2.1,
         (handlePost envPG ["a"] stB ⟨some "delete", none, some 4⟩ 80 noErr).2.2)
    ∧ socketTaskUpdate envPG ["a"] stB (some pWu) 80 noErr
      = (stB, emitAll ["a"] (Event.tasksUpdate (getTasksPG stB.pgdb false) 80)) :=
  ⟨C7_socket_http_equivalence.1 ["a"] stB pW2 80 rfl,
   C7_socket_http_equivalence.2.2.1 ["a"] stB 4 80 (by decide),
   (C7_socket_http_equivalence.2.2.2.1 ["a"] stB pWu 80 3 rfl (by decide)).1⟩

/-- Claim C9: a relational insert stores exactly the assignee string the
alias test inspects, and emits one clawd:task event carrying the new task
and a rendered message to every session exactly when that string contains
one of the two aliases case-insensitively, and emits nothing otherwise. -/
theorem C9_clawd_notification_on_insert :
    ∀ (sessions : List String) (db : PGDB) (p : JTask) (now : Int),
      wantsUpdate p = false →
      (newRowOf db p now).assignee = jsOrStr p.assignee ""
      ∧ (clawdMatchStr (jsOrStr p.assignee "") = true →
          (saveTaskPG envPG sessions db p now false).2.2
            = emitAll sessions (Event.clawdTask { p with id := some now }
                ("📋 Nova task para Clawd: " ++ jsShow p.title) now)
          ∧ ∀ s ∈ sessions,
              (s, Event.clawdTask { p with id := some now }
                  ("📋 Nova task para Clawd: " ++ jsShow p.title) now)
                ∈ (saveTaskPG envPG sessions db p now false).2.2)
      ∧ (clawdMatchStr (jsOrStr p.assignee "") = false →
          (saveTaskPG envPG sessions db p now false).2.2 = []) := by
  intro sessions db p now hw
  rw [saveTaskPG_insert_eq envPG sessions db p now rfl hw]
  refine ⟨rfl, ?_, ?_⟩
  · intro hm
    have hcm : clawdMatch p.assignee = true := hm
    constructor
    · simp only [hcm, if_true]
      unfold broadcastClawdNotification
      have : clawdMatch (({ p with id := some now } : JTask)).assignee = true := hcm
      simp only [this, if_true]
      rfl
    · intro s hs
      simp only [hcm, if_true]
      unfold broadcastClawdNotification
      have : clawdMatch (({ p with id := some now } : JTask)).assignee = true := hcm
      simp only [this, if_true]
      show _ ∈ (if (envPG.hasIo && envPG.usePostgres) = true then _ else [])
      exact (mem_emitAll s _ sessions).mpr hs
  · intro hm
    have hcm : clawdMatch p.assignee = false := hm
    simp only [hcm]
    rfl

def c9p : JTask := { emptyTask with title := some "T", assignee := some "Clawd" }
def c9q : JTask := { emptyTask with title := some "U", assignee := some "maria" }

/-- Claim C9 witness: the notification theorem evaluated on a matching
and on a non-matching concrete insert. -/
theorem C9_clawd_notification_on_insert_witness :
    (saveTaskPG envPG ["a", "b"] dbW2 c9p 90 false).2.2
      = emitAll ["a", "b"] (Event.clawdTask { c9p with id := some 90 }
          ("📋 Nova task para Clawd: " ++ jsShow c9p.title) 90)
    ∧ (saveTaskPG envPG ["a", "b"] dbW2 c9q 90 false).2.2 = [] :=
  ⟨((C9_clawd_notification_on_insert ["a", "b"] dbW2 c9p 90 rfl).2.1 (by decide)).1,
   (C9_clawd_notification_on_insert ["a", "b"] dbW2 c9q 90 rfl).2.2 (by decide)⟩

/-- Claim C10: the task carried by the clawd:task event has the
wall-clock timestamp as id, while the stored row carries the sequence
value, so whenever the two numbers differ the notification id does not
identify the stored row. -/
theorem C10_notification_id_is_wallclock :
    ∀ (sessions : List String) (db : PGDB) (p : JTask) (now : Int),
      wantsUpdate p = false → clawdMatch p.assignee = true →
      (({ p with id := some now } : JTask)).id = some now
      ∧ (saveTaskPG envPG sessions db p now false).2.2
          = emitAll sessions (Event.clawdTask { p with id := some now }
              ("📋 Nova task para Clawd: " ++ jsShow p.title) now)
      ∧ (newRowOf db p now).id = db.nextId
      ∧ (saveTaskPG envPG sessions db p now false).2.1.rows = db.rows ++ [newRowOf db p now]
      ∧ (now ≠ db.nextId →
          (({ p with id := some now } : JTask)).id ≠ some (newRowOf db p now).id) := by
  intro sessions db p now hw hcm
  rw [saveTaskPG_insert_eq envPG sessions db p now rfl hw]
  refine ⟨rfl, ?_, rfl, rfl, ?_⟩
  · simp only [hcm, if_true]
    unfold broadcastClawdNotification
    have : clawdMatch (({ p with id := some now } : JTask)).assignee = true := hcm
    simp only [this, if_true]
    rfl
  · intro hne
    show some now ≠ some db.nextId
    exact fun hcon => hne (Option.some.inj hcon)

/-- Claim C10 witness: the id-mismatch theorem evaluated on a concrete
insert where the timestamp 90 differs from the sequence value. -/
theorem C10_notification_id_is_wallclock_witness :
    (({ c9p with id := some 90 } : JTask)).id = some 90
    ∧ (newRowOf dbW2 c9p 90).id = dbW2.nextId
    ∧ (({ c9p with id := some 90 } : JTask)).id ≠ some (newRowOf dbW2 c9p 90).id :=
  ⟨(C10_notification_id_is_wallclock ["a"] dbW2 c9p 90 rfl (by decide)).1,
   (C10_notification_id_is_wallclock ["a"] dbW2 c9p 90 rfl (by decide)).2.2.1,
   (C10_notification_id_is_wallclock ["a"] dbW2 c9p 90 rfl (by decide)).2.2.2.2 (by decide)⟩
